import Mathlib

/-!
Shallow embedding of the `url-shortener-drf` service layer
(`apps/shortener/services.py` and `apps/shortener/models.py`).

Modelling conventions:
* Datetimes (`django.utils.timezone.now()` values) are natural numbers; each
  service call receives the current time `now : Nat` explicitly.
* The database is a `Store`: a list of `ShortenedURL` rows, a list of
  `URLClick` rows, and the next auto-generated primary key.
* Library code that is not part of this repository (Python `hashlib.sha256`,
  the `hashids` package, the `validators` package, Django's `URLValidator`)
  is abstracted as function-valued fields of `Config`, mirroring how the
  service reads `settings.URL_SHORTENER` and constructs its collaborators in
  `URLShortenerService.__init__`.
* Python exceptions become the `Err` sum type; fallible operations return
  `Except`.  An error return leaves the caller's store untouched, matching
  `transaction.atomic` (all-or-nothing persistence).
-/

namespace UrlShortener

/-- Configuration and external collaborators of `URLShortenerService`.
`DOMAIN`, `HASHIDS_SALT` and `HASHIDS_MIN_LENGTH` come from
`settings.URL_SHORTENER`; `hashids_encode salt min_length n` models
`Hashids(salt=salt, min_length=min_length).encode(n)`; `sha256_hexdigest s`
models `hashlib.sha256(s.encode()).hexdigest()`; `validators_url` models
`validators.url` (used in `services.py`); `django_urlvalidator` models
Django's `URLValidator` (used in `models.ShortenedURL.clean`). -/
structure Config where
  DOMAIN : String
  HASHIDS_SALT : String
  HASHIDS_MIN_LENGTH : Nat
  hashids_encode : String → Nat → Nat → String
  sha256_hexdigest : String → String
  validators_url : String → Bool
  django_urlvalidator : String → Bool

/-- A row of the `shortened_urls` table (`models.ShortenedURL`).
`id` is the auto primary key assigned at insert. -/
structure ShortenedURL where
  id : Nat
  original_url : String
  short_code : String
  title : Option String
  description : Option String
  created_at : Nat
  updated_at : Nat
  expires_at : Option Nat
  is_active : Bool
  click_count : Nat
  last_accessed_at : Option Nat
  created_by_ip : Option String
deriving DecidableEq

/-- A row of the `url_clicks` table (`models.URLClick`); the foreign key is
modelled by the parent row's primary key. -/
structure URLClick where
  shortened_url_id : Nat
  clicked_at : Nat
  ip_address : Option String
  user_agent : Option String
  referer : Option String
deriving DecidableEq

/-- The database state: all persisted rows plus the next auto primary key. -/
structure Store where
  urls : List ShortenedURL
  clicks : List URLClick
  next_id : Nat
deriving DecidableEq

/-- Errors raised by the service layer (`exceptions.py`), plus Django's
`ValidationError` for the case where model validation escapes uncaught
(`URLNotFoundError` and `URLExpiredError` are subclasses of
`URLShortenerError` in the source; the subtyping is not needed here). -/
inductive Err where
  | URLShortenerError (msg : String)
  | URLNotFoundError (msg : String)
  | URLExpiredError (msg : String)
  | ValidationError (msg : String)
deriving DecidableEq

/-- `ShortenedURL.is_expired` (`models.py`): expired when `expires_at` is set
and `timezone.now() > expires_at`. -/
def is_expired (r : ShortenedURL) (now : Nat) : Bool :=
  match r.expires_at with
  | none => false
  | some e => decide (e < now)

/-- `ShortenedURL.is_available` (`models.py`): active and not expired. -/
def is_available (r : ShortenedURL) (now : Nat) : Bool :=
  r.is_active && !(is_expired r now)

/-- `ShortenedURL.clean` (`models.py`): validate `original_url` with
`URLValidator`, then reject an `expires_at` in the past
(`self.expires_at < timezone.now()`; a datetime is always truthy in Python,
so the guard `if self.expires_at` is just the `some` case).  The method
raises at the first failing check. -/
def clean (cfg : Config) (r : ShortenedURL) (now : Nat) : Except String Unit :=
  if !(cfg.django_urlvalidator r.original_url) then
    .error "Please enter a valid URL."
  else
    match r.expires_at with
    | some e =>
        if e < now then .error "Expiration date cannot be in the past."
        else .ok ()
    | none => .ok ()

/-- Django's unique check on `short_code` (from `unique=True` on the field),
run by `Model.full_clean` via `validate_unique`.  A new instance (`pk` still
`None`, `is_new = true`) conflicts with any row holding the same code; a
saved instance excludes itself by primary key. -/
def validate_unique (urls : List ShortenedURL) (r : ShortenedURL)
    (is_new : Bool) : Bool :=
  urls.all (fun x => (!is_new && x.id == r.id) || x.short_code != r.short_code)

/-- `Model.full_clean` as exercised by `ShortenedURL.save`: the custom
`clean` plus the unique check on `short_code`.  (Field-level max-length
checks of `clean_fields` are not modelled; no claim depends on them.
`full_clean` accumulates errors and raises once if any check failed, so it
fails exactly when `clean` fails or the unique check fails.) -/
def full_clean (cfg : Config) (urls : List ShortenedURL) (r : ShortenedURL)
    (now : Nat) (is_new : Bool) : Except String Unit :=
  match clean cfg r now with
  | .error m => .error m
  | .ok () =>
      if validate_unique urls r is_new then .ok ()
      else .error "Shortened URL with this Short code already exists."

/-- `ShortenedURL.save` for a fresh instance (`services.shorten_url` insert
path): `full_clean` then INSERT.  The caller has already set `r.id` to the
store's next primary key; `created_at` (`auto_now_add`) and `updated_at`
(`auto_now`) are set to the current time by the caller as Django's field
`pre_save` hooks would. -/
def save_new (cfg : Config) (s : Store) (r : ShortenedURL) (now : Nat) :
    Except String Store :=
  match full_clean cfg s.urls r now true with
  | .error m => .error m
  | .ok () => .ok { s with urls := s.urls ++ [r], next_id := s.next_id + 1 }

/-- `ShortenedURL.save(update_fields=['click_count', 'last_accessed_at'])`
(the partial update issued by `increment_click_count`): `full_clean`, then an
UPDATE writing only the two listed columns of the row with this primary key.
Because `updated_at` is not in `update_fields`, its `auto_now` hook is not
run and the column keeps its stored value. -/
def save_update_click_fields (cfg : Config) (s : Store) (r : ShortenedURL)
    (now : Nat) : Except String Store :=
  match full_clean cfg s.urls r now false with
  | .error m => .error m
  | .ok () =>
      .ok { s with
            urls := s.urls.map (fun x =>
              if x.id == r.id then
                { x with click_count := r.click_count,
                         last_accessed_at := r.last_accessed_at }
              else x) }

/-- `ShortenedURL.increment_click_count` (`models.py`): bump `click_count`,
stamp `last_accessed_at`, and save only those two fields.  Returns the
updated in-memory instance together with the new store. -/
def increment_click_count (cfg : Config) (s : Store) (r : ShortenedURL)
    (now : Nat) : Except String (ShortenedURL × Store) :=
  let r2 := { r with click_count := r.click_count + 1,
                     last_accessed_at := some now }
  match save_update_click_fields cfg s r2 now with
  | .error m => .error m
  | .ok s2 => .ok (r2, s2)

/-- `int(url_hash[:16], 16)` digit value.  SHA-256 hexdigests consist of
lowercase hex digits only, so the fallback branch is unreachable for real
digests (Python would raise `ValueError` on a non-hex digit). -/
def hex_digit_val (c : Char) : Nat :=
  if decide (c.toNat ≥ 48) && decide (c.toNat ≤ 57) then c.toNat - 48
  else if decide (c.toNat ≥ 97) && decide (c.toNat ≤ 102) then c.toNat - 97 + 10
  else if decide (c.toNat ≥ 65) && decide (c.toNat ≤ 70) then c.toNat - 65 + 10
  else 0

/-- `int(s, 16)`: interpret a hex string as an unsigned integer (left fold
over the characters of the string). -/
def int_of_hex (s : String) : Nat :=
  s.data.foldl (fun a c => 16 * a + hex_digit_val c) 0

/-- Python's character-based slice `s[:16]`. -/
def take_chars (s : String) (n : Nat) : String :=
  String.mk (s.data.take n)

/-- `URLShortenerService._generate_short_code`: SHA-256 hexdigest of the raw
URL string (`hash_input = f"{url}"` is the identity), first 16 hex
characters interpreted as an integer, encoded with the configured salted
minimum-length Hashids instance. -/
def generate_short_code (cfg : Config) (url : String) : String :=
  let hash_input := url
  let url_hash := cfg.sha256_hexdigest hash_input
  let hash_int := int_of_hex (take_chars url_hash 16)
  cfg.hashids_encode cfg.HASHIDS_SALT cfg.HASHIDS_MIN_LENGTH hash_int

/-- Modelled from the spec (section 4.1 Code Generator), for comparison with
`generate_short_code`: compute a cryptographic digest over the raw URL
string, take the first 16 hex characters, interpret them as a large unsigned
integer, and encode that integer with the salted minimum-length reversible
integer-to-string scheme. -/
def encode_of_spec (cfg : Config) (url : String) : String :=
  cfg.hashids_encode cfg.HASHIDS_SALT cfg.HASHIDS_MIN_LENGTH
    (int_of_hex (take_chars (cfg.sha256_hexdigest url) 16))

/-- Result of `queryset.first()` on a `ShortenedURL` queryset: under the
model's `Meta.ordering = ['-created_at']` the first row is the one with the
greatest `created_at` (earliest listed row wins ties). -/
def queryset_first (l : List ShortenedURL) : Option ShortenedURL :=
  l.foldl
    (fun acc x =>
      match acc with
      | none => some x
      | some y => if y.created_at < x.created_at then some x else acc)
    none

/-- `URLShortenerService._find_existing_url`: first row (most recently
created) with the same `original_url` and `is_active = True`.  The
`except Exception: return None` around the query guards database faults,
which do not occur in the model. -/
def find_existing_url (s : Store) (original_url : String) :
    Option ShortenedURL :=
  queryset_first
    (s.urls.filter (fun r => r.original_url == original_url && r.is_active))

/-- The dictionary built by `URLShortenerService._format_url_response`. -/
structure URLResponse where
  short_code : String
  short_url : String
  original_url : String
  title : Option String
  description : Option String
  created_at : Nat
  expires_at : Option Nat
  click_count : Nat
deriving DecidableEq

/-- Python `self.domain.rstrip('/')`: drop every trailing slash. -/
def rstrip_slash (s : String) : String :=
  String.mk ((s.data.reverse.dropWhile (fun c => c == '/')).reverse)

/-- `URLShortenerService._format_url_response`. -/
def format_url_response (cfg : Config) (r : ShortenedURL) : URLResponse :=
  { short_code := r.short_code,
    short_url := rstrip_slash cfg.DOMAIN ++ "/shrt/" ++ r.short_code,
    original_url := r.original_url,
    title := r.title,
    description := r.description,
    created_at := r.created_at,
    expires_at := r.expires_at,
    click_count := r.click_count }

/-- `URLShortenerService.shorten_url`: validate the URL with
`validators.url`, try to dedupe against an existing active available row,
otherwise generate the code and insert a fresh row inside
`transaction.atomic`, wrapping any failure into the generic
`URLShortenerError`.  The Python guard `if existing_url and
existing_url.is_available` returns the formatted existing row; otherwise
control falls through to the insert. -/
def shorten_url (cfg : Config) (s : Store) (now : Nat) (original_url : String)
    (title : Option String) (description : Option String)
    (expires_at : Option Nat) (client_ip : Option String) :
    Except Err (URLResponse × Store) :=
  if !(cfg.validators_url original_url) then
    .error (.URLShortenerError "Invalid URL format provided")
  else
    let dedupe_hit : Option ShortenedURL :=
      match find_existing_url s original_url with
      | some existing =>
          if is_available existing now then some existing else none
      | none => none
    match dedupe_hit with
    | some existing => .ok (format_url_response cfg existing, s)
    | none =>
        let short_code := generate_short_code cfg original_url
        let r : ShortenedURL :=
          { id := s.next_id,
            original_url := original_url,
            short_code := short_code,
            title := title,
            description := description,
            created_at := now,
            updated_at := now,
            expires_at := expires_at,
            is_active := true,
            click_count := 0,
            last_accessed_at := none,
            created_by_ip := client_ip }
        match save_new cfg s r now with
        | .ok s2 => .ok (format_url_response cfg r, s2)
        | .error m =>
            .error (.URLShortenerError ("Failed to create shortened URL: " ++ m))

/-- The dictionary returned by `URLShortenerService.get_original_url`. -/
structure ResolveResponse where
  original_url : String
  short_code : String
  title : Option String
  description : Option String
  click_count : Nat
  created_at : Nat
  expires_at : Option Nat
deriving DecidableEq

/-- `ShortenedURL.objects.get(short_code=...)`: the `unique=True` database
constraint guarantees at most one matching row, so the lookup is the first
match; no match raises `DoesNotExist`. -/
def objects_get (s : Store) (short_code : String) : Option ShortenedURL :=
  s.urls.find? (fun r => r.short_code == short_code)

/-- `URLShortenerService.get_original_url`: look the row up (absent →
`URLNotFoundError`), reject inactive rows (`URLNotFoundError`) and expired
rows (`URLExpiredError`), then optionally track the click via
`increment_click_count` (whose uncaught `ValidationError` would propagate)
and build the response from the in-memory instance. -/
def get_original_url (cfg : Config) (s : Store) (now : Nat)
    (short_code : String) (track_click : Bool) :
    Except Err (ResolveResponse × Store) :=
  match objects_get s short_code with
  | none =>
      .error (.URLNotFoundError ("Short code " ++ short_code ++ " not found"))
  | some r =>
      if !r.is_active then
        .error (.URLNotFoundError ("Short code " ++ short_code ++ " is not active"))
      else if is_expired r now then
        .error (.URLExpiredError ("Short code " ++ short_code ++ " has expired"))
      else
        match (if track_click then increment_click_count cfg s r now
               else .ok (r, s)) with
        | .error m => .error (.ValidationError m)
        | .ok (r2, s2) =>
            .ok ({ original_url := r2.original_url,
                   short_code := r2.short_code,
                   title := r2.title,
                   description := r2.description,
                   click_count := r2.click_count,
                   created_at := r2.created_at,
                   expires_at := r2.expires_at }, s2)

/-- The dictionary returned by `URLShortenerService.get_url_stats`. -/
structure StatsResponse where
  short_code : String
  original_url : String
  title : Option String
  description : Option String
  click_count : Nat
  created_at : Nat
  last_accessed_at : Option Nat
  expires_at : Option Nat
  is_active : Bool
  is_expired : Bool
deriving DecidableEq

/-- `URLShortenerService.get_url_stats`: absent code → `URLNotFoundError`;
otherwise return the stored fields plus the computed `is_active` and
`is_expired`, with no availability gating and no store mutation. -/
def get_url_stats (s : Store) (now : Nat) (short_code : String) :
    Except Err StatsResponse :=
  match objects_get s short_code with
  | none =>
      .error (.URLNotFoundError ("Short code " ++ short_code ++ " not found"))
  | some r =>
      .ok { short_code := r.short_code,
            original_url := r.original_url,
            title := r.title,
            description := r.description,
            click_count := r.click_count,
            created_at := r.created_at,
            last_accessed_at := r.last_accessed_at,
            expires_at := r.expires_at,
            is_active := r.is_active,
            is_expired := is_expired r now }

/-- `URLShortenerService.track_click`: look the row up and append a
`URLClick`; a missing row (`DoesNotExist`) is caught and ignored so the
redirect path is never broken.  (`URLClick.objects.create` performs a plain
insert; `Model.save` does not run `full_clean` for `URLClick`.) -/
def track_click (s : Store) (now : Nat) (short_code : String)
    (ip_address : Option String) (user_agent : Option String)
    (referer : Option String) : Store :=
  match objects_get s short_code with
  | none => s
  | some r =>
      { s with clicks := s.clicks ++
          [{ shortened_url_id := r.id,
             clicked_at := now,
             ip_address := ip_address,
             user_agent := user_agent,
             referer := referer }] }

/-- No two rows share a `short_code` (the database `unique=True` constraint
on `shortened_urls.short_code`). -/
def codes_nodup (urls : List ShortenedURL) : Bool :=
  match urls with
  | [] => true
  | r :: rest =>
      rest.all (fun x => x.short_code != r.short_code) && codes_nodup rest

/-- No two rows share a primary key (the database primary-key constraint). -/
def ids_nodup (urls : List ShortenedURL) : Bool :=
  match urls with
  | [] => true
  | r :: rest => rest.all (fun x => x.id != r.id) && ids_nodup rest

/-- The dedupe lookup of `shorten_url` finds no available row for this URL:
either `_find_existing_url` returns nothing, or the returned row is not
`is_available`.  (Exactly the condition under which `shorten_url` proceeds
to the insert path.) -/
def dedupe_miss (s : Store) (now : Nat) (original_url : String) : Bool :=
  match find_existing_url s original_url with
  | some r => !(is_available r now)
  | none => true

/-- The in-memory result of `increment_click_count` on row `r` at time
`now`: `click_count` bumped and `last_accessed_at` stamped, all other fields
untouched. -/
def clicked_row (r : ShortenedURL) (now : Nat) : ShortenedURL :=
  { r with click_count := r.click_count + 1, last_accessed_at := some now }

/-- The row bearing `code` (if any) is available at time `now`: the lookup
succeeds and the row is active and unexpired. -/
def code_available (s : Store) (code : String) (now : Nat) : Bool :=
  match objects_get s code with
  | some r => is_available r now
  | none => false

/-! Concrete fixtures used to instantiate the theorems below.  The library
collaborators are replaced by simple total stand-ins; only the service-layer
logic under verification is exercised. -/

/-- A concrete configuration with permissive validators and toy stand-ins
for the SHA-256 digest and the Hashids encoder. -/
def fixture_cfg : Config :=
  { DOMAIN := "http://localhost:8000/",
    HASHIDS_SALT := "salt",
    HASHIDS_MIN_LENGTH := 7,
    hashids_encode := fun salt min_len n =>
      salt ++ "-" ++ toString min_len ++ "-" ++ toString n,
    sha256_hexdigest := fun _ => "ff",
    validators_url := fun _ => true,
    django_urlvalidator := fun _ => true }

/-- The empty database. -/
def store_empty : Store := { urls := [], clicks := [], next_id := 1 }

/-- An active, unexpired row. -/
def row_a : ShortenedURL :=
  { id := 1,
    original_url := "https://example.com/a",
    short_code := "abc",
    title := some "A",
    description := none,
    created_at := 0,
    updated_at := 3,
    expires_at := none,
    is_active := true,
    click_count := 0,
    last_accessed_at := none,
    created_by_ip := none }

/-- A store holding just `row_a`. -/
def store_a : Store := { urls := [row_a], clicks := [], next_id := 2 }

/-- An inactive row. -/
def row_inactive : ShortenedURL :=
  { id := 1,
    original_url := "https://example.com/i",
    short_code := "inact",
    title := none,
    description := none,
    created_at := 0,
    updated_at := 0,
    expires_at := none,
    is_active := false,
    click_count := 4,
    last_accessed_at := some 2,
    created_by_ip := none }

/-- An active row that expired at time 1. -/
def row_expired : ShortenedURL :=
  { id := 2,
    original_url := "https://example.com/e",
    short_code := "exp",
    title := none,
    description := none,
    created_at := 0,
    updated_at := 0,
    expires_at := some 1,
    is_active := true,
    click_count := 0,
    last_accessed_at := none,
    created_by_ip := none }

/-- A store holding an inactive row and an expired row. -/
def store_mix : Store :=
  { urls := [row_inactive, row_expired], clicks := [], next_id := 3 }

/-- An active-but-expired row whose `short_code` is exactly
`generate_short_code fixture_cfg "https://example.com/c"`
(that is, `"salt-7-255"`, since the stand-in digest is `"ff"` and
`int_of_hex "ff" = 255`). -/
def row_collision : ShortenedURL :=
  { id := 1,
    original_url := "https://example.com/c",
    short_code := "salt-7-255",
    title := none,
    description := none,
    created_at := 0,
    updated_at := 0,
    expires_at := some 1,
    is_active := true,
    click_count := 0,
    last_accessed_at := none,
    created_by_ip := none }

/-- A store holding just `row_collision`. -/
def store_collision : Store :=
  { urls := [row_collision], clicks := [], next_id := 2 }

/-- The row `shorten_url fixture_cfg store_empty 0 "https://example.com/a"`
inserts (its code is `"salt-7-255"` under the fixture collaborators). -/
def row_new : ShortenedURL :=
  { id := 1,
    original_url := "https://example.com/a",
    short_code := "salt-7-255",
    title := none,
    description := none,
    created_at := 0,
    updated_at := 0,
    expires_at := none,
    is_active := true,
    click_count := 0,
    last_accessed_at := none,
    created_by_ip := none }

/-- The store produced by that insert. -/
def store_new : Store := { urls := [row_new], clicks := [], next_id := 2 }

/-- `row_a` after one tracked resolution at time 10. -/
def row_a_clicked : ShortenedURL :=
  { row_a with click_count := 1, last_accessed_at := some 10 }

/-- `store_a` after one tracked resolution of `"abc"` at time 10. -/
def store_a_clicked : Store :=
  { urls := [row_a_clicked], clicks := [], next_id := 2 }

/-! Helper lemmas shared by the claim theorems. -/

theorem queryset_foldl_mem (l : List ShortenedURL) :
    ∀ (acc : Option ShortenedURL) (x : ShortenedURL),
      l.foldl
        (fun acc x =>
          match acc with
          | none => some x
          | some y => if y.created_at < x.created_at then some x else acc)
        acc = some x →
      acc = some x ∨ x ∈ l := by
  induction l with
  | nil => intro acc x h; exact Or.inl h
  | cons hd tl ih =>
      intro acc x h
      simp only [List.foldl_cons] at h
      rcases ih _ x h with h2 | h2
      · cases acc with
        | none =>
            simp only [Option.some.injEq] at h2
            exact Or.inr (h2 ▸ List.mem_cons_self hd tl)
        | some y =>
            by_cases hc : y.created_at < hd.created_at
            · simp only [hc, if_true, Option.some.injEq] at h2
              exact Or.inr (h2 ▸ List.mem_cons_self hd tl)
            · simp only [hc, if_false] at h2
              exact Or.inl h2
      · exact Or.inr (List.mem_cons_of_mem hd h2)

theorem queryset_first_mem (l : List ShortenedURL) (x : ShortenedURL)
    (h : queryset_first l = some x) : x ∈ l := by
  unfold queryset_first at h
  rcases queryset_foldl_mem l none x h with h2 | h2
  · exact absurd h2 (by simp)
  · exact h2

theorem find_existing_some_mem (s : Store) (u : String) (r : ShortenedURL)
    (h : find_existing_url s u = some r) :
    r ∈ s.urls ∧ r.original_url = u ∧ r.is_active = true := by
  unfold find_existing_url at h
  have hm := queryset_first_mem _ _ h
  have hf := List.mem_filter.mp hm
  obtain ⟨h1, h2⟩ := hf
  simp only [Bool.and_eq_true, beq_iff_eq] at h2
  exact ⟨h1, h2.1, h2.2⟩

theorem codes_nodup_cons {r : ShortenedURL} {t : List ShortenedURL} :
    codes_nodup (r :: t) = true ↔
      (∀ x ∈ t, x.short_code ≠ r.short_code) ∧ codes_nodup t = true := by
  simp [codes_nodup, List.all_eq_true]

theorem ids_nodup_cons {r : ShortenedURL} {t : List ShortenedURL} :
    ids_nodup (r :: t) = true ↔
      (∀ x ∈ t, x.id ≠ r.id) ∧ ids_nodup t = true := by
  simp [ids_nodup, List.all_eq_true]

theorem codes_nodup_unique (l : List ShortenedURL) (hnd : codes_nodup l = true) :
    ∀ x ∈ l, ∀ r ∈ l, x.short_code = r.short_code → x = r := by
  induction l with
  | nil => intro x hx; cases hx
  | cons hd tl ih =>
      rcases codes_nodup_cons.mp hnd with ⟨hne, hnd2⟩
      intro x hx r hr hcode
      rcases List.mem_cons.mp hx with hx2 | hx2
      · rcases List.mem_cons.mp hr with hr2 | hr2
        · exact hx2.trans hr2.symm
        · subst hx2
          exact absurd hcode.symm (hne r hr2)
      · rcases List.mem_cons.mp hr with hr2 | hr2
        · subst hr2
          exact absurd hcode (hne x hx2)
        · exact ih hnd2 x hx2 r hr2 hcode

theorem find_of_codes_nodup (l : List ShortenedURL) (r : ShortenedURL)
    (hnd : codes_nodup l = true) (hmem : r ∈ l) :
    l.find? (fun x => x.short_code == r.short_code) = some r := by
  induction l with
  | nil => cases hmem
  | cons hd tl ih =>
      rcases codes_nodup_cons.mp hnd with ⟨hne, hnd2⟩
      rcases List.mem_cons.mp hmem with h2 | h2
      · subst h2
        exact List.find?_cons_of_pos _ (by simp)
      · have hx : (hd.short_code == r.short_code) = false := by
          have := hne r h2
          simp only [beq_eq_false_iff_ne, ne_eq]
          intro hh
          exact this hh.symm
        rw [List.find?_cons_of_neg _ (by simp [hx]), ih hnd2 h2]

theorem validate_unique_update (l : List ShortenedURL) (r : ShortenedURL)
    (c : Nat) (la : Option Nat) (hnd : codes_nodup l = true) (hmem : r ∈ l) :
    validate_unique l
      { r with click_count := c, last_accessed_at := la } false = true := by
  unfold validate_unique
  rw [List.all_eq_true]
  intro x hx
  by_cases hc : x.short_code = r.short_code
  · have hxr := codes_nodup_unique l hnd x hx r hmem hc
    subst hxr
    simp
  · simp [hc]

theorem find_append_single (l : List ShortenedURL) (r : ShortenedURL)
    (code : String) (h : ∀ x ∈ l, (x.short_code == code) = false)
    (hr : (r.short_code == code) = true) :
    (l ++ [r]).find? (fun x => x.short_code == code) = some r := by
  induction l with
  | nil =>
      rw [List.nil_append]
      exact List.find?_cons_of_pos _ hr
  | cons hd tl ih =>
      rw [List.cons_append,
        List.find?_cons_of_neg _ (by simp [h hd (List.mem_cons_self hd tl)])]
      exact ih fun x hx => h x (List.mem_cons_of_mem hd hx)

theorem find_map_click (l : List ShortenedURL) (code : String)
    (r : ShortenedURL) (c : Nat) (la : Option Nat)
    (hnd : ids_nodup l = true)
    (hf : l.find? (fun x => x.short_code == code) = some r) :
    (l.map (fun x =>
        if x.id == r.id then
          { x with click_count := c, last_accessed_at := la }
        else x)).find? (fun x => x.short_code == code)
      = some { r with click_count := c, last_accessed_at := la } := by
  induction l with
  | nil => simp [List.find?] at hf
  | cons hd tl ih =>
      rcases ids_nodup_cons.mp hnd with ⟨hne, hnd2⟩
      cases hpb : (hd.short_code == code) with
      | true =>
          simp only [List.find?_cons, hpb, Option.some.injEq] at hf
          subst hf
          simp only [List.map_cons, beq_self_eq_true, if_true]
          simp [List.find?_cons, hpb]
      | false =>
          simp only [List.find?_cons, hpb] at hf
          have hrmem : r ∈ tl := List.mem_of_find?_eq_some hf
          have hid : (hd.id == r.id) = false := by
            simp only [beq_eq_false_iff_ne, ne_eq]
            intro hh
            exact hne r hrmem hh.symm
          simp only [List.map_cons, hid, Bool.false_eq_true, if_false,
            List.find?_cons, hpb]
          exact ih hnd2 hf

theorem save_new_ok_parts (cfg : Config) (s : Store) (r : ShortenedURL)
    (now : Nat) (s3 : Store) (h : save_new cfg s r now = .ok s3) :
    s3.urls = s.urls ++ [r] ∧ s3.clicks = s.clicks ∧
    s3.next_id = s.next_id + 1 ∧ full_clean cfg s.urls r now true = .ok () := by
  simp only [save_new] at h
  split at h
  · exact absurd h (by simp)
  · next hfc =>
      simp only [Except.ok.injEq] at h
      exact ⟨by rw [← h], by rw [← h], by rw [← h], hfc⟩

theorem increment_ok_parts (cfg : Config) (s : Store) (r : ShortenedURL)
    (now : Nat) (r2 : ShortenedURL) (s2 : Store)
    (h : increment_click_count cfg s r now = .ok (r2, s2)) :
    r2 = { r with click_count := r.click_count + 1,
                  last_accessed_at := some now } ∧
    s2.urls = s.urls.map (fun x =>
      if x.id == r.id then
        { x with click_count := r.click_count + 1,
                 last_accessed_at := some now }
      else x) ∧
    s2.clicks = s.clicks ∧ s2.next_id = s.next_id := by
  simp only [increment_click_count] at h
  split at h
  · exact absurd h (by simp)
  · next s3 hsu =>
      simp only [Except.ok.injEq, Prod.mk.injEq] at h
      obtain ⟨h1, h2⟩ := h
      simp only [save_update_click_fields] at hsu
      split at hsu
      · exact absurd hsu (by simp)
      · simp only [Except.ok.injEq] at hsu
        subst h2
        refine ⟨h1.symm, ?_, by rw [← hsu], by rw [← hsu]⟩
        rw [← hsu]

theorem clean_ok_of (cfg : Config) (r : ShortenedURL) (now : Nat)
    (hdj : cfg.django_urlvalidator r.original_url = true)
    (hexp : is_expired r now = false) : clean cfg r now = .ok () := by
  unfold clean
  rw [if_neg (by simp [hdj])]
  cases hre : r.expires_at with
  | none => rfl
  | some e =>
      unfold is_expired at hexp
      rw [hre] at hexp
      simp only [decide_eq_false_iff_not] at hexp
      simp [hexp]

theorem full_clean_ok_of (cfg : Config) (urls : List ShortenedURL)
    (r : ShortenedURL) (now : Nat) (is_new : Bool)
    (hcl : clean cfg r now = .ok ())
    (hvk : validate_unique urls r is_new = true) :
    full_clean cfg urls r now is_new = .ok () := by
  simp [full_clean, hcl, hvk]

theorem full_clean_ok_parts (cfg : Config) (urls : List ShortenedURL)
    (r : ShortenedURL) (now : Nat) (is_new : Bool)
    (h : full_clean cfg urls r now is_new = .ok ()) :
    clean cfg r now = .ok () ∧ validate_unique urls r is_new = true := by
  simp only [full_clean] at h
  split at h
  · exact absurd h (by simp)
  · next hcl =>
      refine ⟨hcl, ?_⟩
      by_cases hvk : validate_unique urls r is_new = true
      · exact hvk
      · rw [if_neg hvk] at h
        exact absurd h (by simp)

/-- Claim C2: when an active and available row for `original_url` already
exists, two `shorten_url` calls with that URL (at any times at which the row
is still available, and with arbitrary and possibly different
title/description/expires_at metadata) both return that row's response —
hence the same `short_code` — and leave the store unchanged (no second
persisted row); the metadata of both calls is silently discarded. -/
theorem claim_c2 (cfg : Config) (s : Store) (now1 now2 : Nat) (u : String)
    (t1 d1 : Option String) (e1 : Option Nat) (ip1 : Option String)
    (t2 d2 : Option String) (e2 : Option Nat) (ip2 : Option String)
    (r : ShortenedURL)
    (hv : cfg.validators_url u = true)
    (hf : find_existing_url s u = some r)
    (h1 : is_available r now1 = true)
    (h2 : is_available r now2 = true) :
    shorten_url cfg s now1 u t1 d1 e1 ip1
        = .ok (format_url_response cfg r, s) ∧
    shorten_url cfg s now2 u t2 d2 e2 ip2
        = .ok (format_url_response cfg r, s) := by
  constructor <;> simp [shorten_url, hv, hf, h1, h2]

/-- Claim C2 witness: two concrete calls for the URL of the available
`row_a`, with different metadata, both return `row_a`'s response and the
unchanged store. -/
theorem claim_c2_witness :
    shorten_url fixture_cfg store_a 7 "https://example.com/a"
        (some "T") none none none
      = .ok (format_url_response fixture_cfg row_a, store_a) ∧
    shorten_url fixture_cfg store_a 9 "https://example.com/a"
        none (some "D") none none
      = .ok (format_url_response fixture_cfg row_a, store_a) :=
  claim_c2 fixture_cfg store_a 7 9 "https://example.com/a"
    (some "T") none none none none (some "D") none none row_a
    (by decide) (by decide) (by decide) (by decide)

/-- Claim C3: the short-code generator is exactly the composition described
by the spec — SHA-256 hexdigest of the raw URL string, first 16 hex
characters interpreted as an unsigned integer, encoded with the salted
minimum-length Hashids configuration — and it is deterministic: equal URLs
under the same configuration yield the identical code. -/
theorem claim_c3 (cfg : Config) (u1 u2 : String) :
    generate_short_code cfg u1 = encode_of_spec cfg u1 ∧
    (u1 = u2 → generate_short_code cfg u1 = generate_short_code cfg u2) :=
  ⟨rfl, fun h => by rw [h]⟩

/-- Claim C3 witness at a concrete configuration and URL. -/
theorem claim_c3_witness :
    generate_short_code fixture_cfg "https://example.com/a"
        = encode_of_spec fixture_cfg "https://example.com/a" ∧
    generate_short_code fixture_cfg "https://example.com/a"
        = generate_short_code fixture_cfg "https://example.com/a" :=
  ⟨(claim_c3 fixture_cfg "https://example.com/a" "https://example.com/a").1,
   (claim_c3 fixture_cfg "https://example.com/a" "https://example.com/a").2 rfl⟩

/-- Claim C4: `get_original_url` raises `URLNotFoundError` exactly when the
code resolves to no row or to an inactive row (an inactive row — even an
inactive-and-expired one — is reported with the same error as an absent
one), and raises `URLExpiredError` exactly when the row exists, is active,
and is expired. -/
theorem claim_c4 (cfg : Config) (s : Store) (now : Nat) (code : String)
    (track : Bool) :
    ((∃ m, get_original_url cfg s now code track
          = .error (.URLNotFoundError m)) ↔
      (objects_get s code = none ∨
        ∃ r, objects_get s code = some r ∧ r.is_active = false)) ∧
    ((∃ m, get_original_url cfg s now code track
          = .error (.URLExpiredError m)) ↔
      (∃ r, objects_get s code = some r ∧ r.is_active = true ∧
        is_expired r now = true)) := by
  cases h : objects_get s code with
  | none => constructor <;> simp [get_original_url, h]
  | some r =>
      cases ha : r.is_active with
      | false => constructor <;> simp [get_original_url, h, ha]
      | true =>
          cases he : is_expired r now with
          | true => constructor <;> simp [get_original_url, h, ha, he]
          | false =>
              cases hi : (if track then increment_click_count cfg s r now
                          else .ok (r, s)) with
              | error m =>
                  constructor <;> simp [get_original_url, h, ha, he, hi]
              | ok p =>
                  obtain ⟨r2, s2⟩ := p
                  constructor <;> simp [get_original_url, h, ha, he, hi]

/-- Claim C4 witness: on a store with an inactive row and an active expired
row, resolving the inactive code yields `URLNotFoundError` and resolving the
expired code yields `URLExpiredError`. -/
theorem claim_c4_witness :
    (∃ m, get_original_url fixture_cfg store_mix 10 "inact" true
        = .error (.URLNotFoundError m)) ∧
    (∃ m, get_original_url fixture_cfg store_mix 10 "exp" true
        = .error (.URLExpiredError m)) :=
  ⟨(claim_c4 fixture_cfg store_mix 10 "inact" true).1.mpr
      (Or.inr ⟨row_inactive, by decide, by decide⟩),
   (claim_c4 fixture_cfg store_mix 10 "exp" true).2.mpr
      ⟨row_expired, by decide, by decide, by decide⟩⟩

/-- Claim C7: `get_url_stats` raises `URLNotFoundError` exactly when no row
bears the code; for any existing row — including an inactive or expired one
— it returns the stored fields together with the computed `is_active` and
`is_expired`, even at inputs where `get_original_url` fails. -/
theorem claim_c7 (cfg : Config) (s : Store) (now : Nat) (code : String)
    (track : Bool) :
    ((∃ m, get_url_stats s now code = .error (.URLNotFoundError m)) ↔
      objects_get s code = none) ∧
    (∀ r, objects_get s code = some r →
      get_url_stats s now code = .ok
        { short_code := r.short_code, original_url := r.original_url,
          title := r.title, description := r.description,
          click_count := r.click_count, created_at := r.created_at,
          last_accessed_at := r.last_accessed_at, expires_at := r.expires_at,
          is_active := r.is_active, is_expired := is_expired r now }) ∧
    (∀ r, objects_get s code = some r →
      r.is_active = false ∨ is_expired r now = true →
      (∃ m, get_original_url cfg s now code track
            = .error (.URLNotFoundError m) ∨
          get_original_url cfg s now code track
            = .error (.URLExpiredError m))) := by
  refine ⟨?_, ?_, ?_⟩
  · cases h : objects_get s code with
    | none => simp [get_url_stats, h]
    | some r => simp [get_url_stats, h]
  · intro r h
    simp [get_url_stats, h]
  · intro r h hbad
    rcases hbad with hb | hb
    · exact ⟨"Short code " ++ code ++ " is not active",
        Or.inl (by simp [get_original_url, h, hb])⟩
    · cases ha : r.is_active with
      | false =>
          exact ⟨"Short code " ++ code ++ " is not active",
            Or.inl (by simp [get_original_url, h, ha])⟩
      | true =>
          exact ⟨"Short code " ++ code ++ " has expired",
            Or.inr (by simp [get_original_url, h, ha, hb])⟩

/-- Claim C7 witness: stats for the expired (but active) row succeed and
report `is_expired = true`, while resolving the same code fails. -/
theorem claim_c7_witness :
    get_url_stats store_mix 10 "exp" = .ok
      { short_code := row_expired.short_code,
        original_url := row_expired.original_url,
        title := row_expired.title,
        description := row_expired.description,
        click_count := row_expired.click_count,
        created_at := row_expired.created_at,
        last_accessed_at := row_expired.last_accessed_at,
        expires_at := row_expired.expires_at,
        is_active := row_expired.is_active,
        is_expired := is_expired row_expired 10 } ∧
    (∃ m, get_original_url fixture_cfg store_mix 10 "exp" true
          = .error (.URLNotFoundError m) ∨
        get_original_url fixture_cfg store_mix 10 "exp" true
          = .error (.URLExpiredError m)) :=
  ⟨(claim_c7 fixture_cfg store_mix 10 "exp" true).2.1 row_expired (by decide),
   (claim_c7 fixture_cfg store_mix 10 "exp" true).2.2 row_expired (by decide)
      (Or.inr (by decide))⟩

/-- Claim C8: `track_click` with a short code that resolves to no row
returns normally (its total return type already rules out raising) and
leaves the store unchanged. -/
theorem claim_c8 (s : Store) (now : Nat) (code : String)
    (ip ua ref : Option String) (h : objects_get s code = none) :
    track_click s now code ip ua ref = s := by
  unfold track_click
  rw [h]

/-- Claim C8 witness: tracking a click for an unknown code on the empty
store is a no-op. -/
theorem claim_c8_witness :
    track_click store_empty 3 "nope" none none none = store_empty :=
  claim_c8 store_empty 3 "nope" none none none rfl

/-- Claim C6 counterexample: `expires_at` equal to the current time is not
strictly after it, yet the create call succeeds and persists a row carrying
that `expires_at` — the model's `clean` only rejects `expires_at <
timezone.now()`, so the claimed failure does not occur. -/
theorem claim_c6_counterexample :
    (shorten_url fixture_cfg store_empty 5 "https://example.com/a"
        none none (some 5) none).toOption.map
      (fun p => p.2.urls.map (fun r => r.expires_at)) = some [some 5] := by
  decide

/-- Claim C6 (amended): a create call whose `expires_at` is strictly before
the current time, when the dedupe lookup yields no available row, fails —
with the generic `URLShortenerError` creation-failure wrapper around the
model-validation message (not with an `InvalidURLError`), raised before any
row is persisted. -/
theorem claim_c6_amended (cfg : Config) (s : Store) (now : Nat) (u : String)
    (t d : Option String) (ip : Option String) (e : Nat)
    (hv : cfg.validators_url u = true)
    (hmiss : dedupe_miss s now u = true)
    (he : e < now) :
    ∃ m, shorten_url cfg s now u t d (some e) ip =
      .error (.URLShortenerError ("Failed to create shortened URL: " ++ m)) := by
  cases hfe : find_existing_url s u with
  | some r =>
      have hna : is_available r now = false := by
        unfold dedupe_miss at hmiss
        rw [hfe] at hmiss
        simpa using hmiss
      cases hdj : cfg.django_urlvalidator u with
      | false =>
          exact ⟨"Please enter a valid URL.",
            by simp [shorten_url, hv, hfe, hna, save_new, full_clean, clean, hdj]⟩
      | true =>
          exact ⟨"Expiration date cannot be in the past.",
            by simp [shorten_url, hv, hfe, hna, save_new, full_clean, clean,
                 hdj, he]⟩
  | none =>
      cases hdj : cfg.django_urlvalidator u with
      | false =>
          exact ⟨"Please enter a valid URL.",
            by simp [shorten_url, hv, hfe, save_new, full_clean, clean, hdj]⟩
      | true =>
          exact ⟨"Expiration date cannot be in the past.",
            by simp [shorten_url, hv, hfe, save_new, full_clean, clean, hdj, he]⟩

/-- Claim C6 (amended) witness: a concrete create with `expires_at = 3` at
time 5 on the empty store fails with the wrapped creation error. -/
theorem claim_c6_amended_witness :
    ∃ m, shorten_url fixture_cfg store_empty 5 "https://example.com/a"
        none none (some 3) none =
      .error (.URLShortenerError ("Failed to create shortened URL: " ++ m)) :=
  claim_c6_amended fixture_cfg store_empty 5 "https://example.com/a"
    none none none 3 (by decide) (by decide) (by decide)

/-- Claim C9 counterexample: a tracked resolution mutates the row (its
`click_count` becomes 1 and `last_accessed_at` becomes the current
time 10), yet `updated_at` keeps its stored value 3 instead of being
refreshed to 10 — the partial update's `update_fields` excludes the
`auto_now` column. -/
theorem claim_c9_counterexample :
    (get_original_url fixture_cfg store_a 10 "abc" true).toOption.map
      (fun p => p.2.urls.map
        (fun r => (r.click_count, r.updated_at, r.last_accessed_at)))
      = some [(1, 3, some 10)] := by
  decide

/-- Claim C9 (amended): `updated_at` is stamped with the current time when a
record is created and saved in full, but the click-tracking partial update
performed by a successful tracked resolution persists only `click_count` and
`last_accessed_at` and leaves every row's `updated_at` unchanged. -/
theorem claim_c9_amended :
    (∀ (cfg : Config) (s : Store) (now : Nat) (u : String)
        (t d : Option String) (e : Option Nat) (ip : Option String)
        (resp : URLResponse) (s2 : Store),
      shorten_url cfg s now u t d e ip = .ok (resp, s2) →
      s2.urls = s.urls ∨ ∃ r, s2.urls = s.urls ++ [r] ∧ r.updated_at = now) ∧
    (∀ (cfg : Config) (s : Store) (now : Nat) (code : String)
        (res : ResolveResponse) (s2 : Store),
      get_original_url cfg s now code true = .ok (res, s2) →
      s2.urls.map (fun r => r.updated_at) = s.urls.map (fun r => r.updated_at)) := by
  constructor
  · intro cfg s now u t d e ip resp s2 hok
    cases hv : cfg.validators_url u with
    | false => simp [shorten_url, hv] at hok
    | true =>
        simp only [shorten_url, hv, Bool.not_true, Bool.false_eq_true,
          if_false] at hok
        cases hfe : find_existing_url s u with
        | some r =>
            rw [hfe] at hok
            cases hava : is_available r now with
            | true =>
                simp only [hava, if_true, Except.ok.injEq,
                  Prod.mk.injEq] at hok
                rw [← hok.2]
                exact Or.inl rfl
            | false =>
                simp only [hava, Bool.false_eq_true, if_false] at hok
                split at hok
                · next s3 hsv =>
                    simp only [Except.ok.injEq, Prod.mk.injEq] at hok
                    rcases save_new_ok_parts _ _ _ _ _ hsv with ⟨hu, _, _, _⟩
                    exact Or.inr ⟨_, hok.2 ▸ hu, rfl⟩
                · simp at hok
        | none =>
            simp only [hfe] at hok
            split at hok
            · next s3 hsv =>
                simp only [Except.ok.injEq, Prod.mk.injEq] at hok
                rcases save_new_ok_parts _ _ _ _ _ hsv with ⟨hu, _, _, _⟩
                exact Or.inr ⟨_, hok.2 ▸ hu, rfl⟩
            · simp at hok
  · intro cfg s now code res s2 hok
    cases hg : objects_get s code with
    | none => simp [get_original_url, hg] at hok
    | some r =>
        cases ha : r.is_active with
        | false => simp [get_original_url, hg, ha] at hok
        | true =>
            cases he : is_expired r now with
            | true => simp [get_original_url, hg, ha, he] at hok
            | false =>
                simp only [get_original_url, hg, ha, he, Bool.not_true,
                  Bool.false_eq_true, if_false, if_true] at hok
                split at hok
                · simp at hok
                · next r2 s3 hinc =>
                    simp only [Except.ok.injEq, Prod.mk.injEq] at hok
                    rcases increment_ok_parts _ _ _ _ _ _ hinc with
                      ⟨_, hu, _, _⟩
                    rw [← hok.2, hu, List.map_map]
                    apply List.map_congr_left
                    intro x hx
                    by_cases hxid : (x.id == r.id) = true <;>
                      simp [Function.comp, hxid]

/-- Claim C9 (amended) witness: a concrete insert stamps `updated_at` with
the creation time, and a concrete tracked resolution leaves every row's
`updated_at` unchanged. -/
theorem claim_c9_amended_witness :
    (store_new.urls = store_empty.urls ∨
      ∃ r, store_new.urls = store_empty.urls ++ [r] ∧ r.updated_at = 0) ∧
    store_a_clicked.urls.map (fun r => r.updated_at)
      = store_a.urls.map (fun r => r.updated_at) :=
  ⟨claim_c9_amended.1 fixture_cfg store_empty 0 "https://example.com/a"
      none none none none (format_url_response fixture_cfg row_new) store_new
      (by rfl),
   claim_c9_amended.2 fixture_cfg store_a 10 "abc"
      { original_url := row_a_clicked.original_url,
        short_code := row_a_clicked.short_code,
        title := row_a_clicked.title,
        description := row_a_clicked.description,
        click_count := row_a_clicked.click_count,
        created_at := row_a_clicked.created_at,
        expires_at := row_a_clicked.expires_at } store_a_clicked (by rfl)⟩

/-- Claim C10: when the store's only row for URL `u` is unavailable
(inactive or expired) and carries the code the generator produces for `u`
(as every service-created row does — second conjunct), `shorten_url u` is
not satisfied by the dedupe check and always fails with the generic
creation-failure `URLShortenerError`: the deterministic generator reproduces
the existing row's code and the `short_code` uniqueness check rejects the
insert, so an unavailable URL cannot be re-shortened while its row exists. -/
theorem claim_c10 :
    (∀ (cfg : Config) (s : Store) (now : Nat) (u : String)
        (t d : Option String) (e : Option Nat) (ip : Option String)
        (r0 : ShortenedURL),
      cfg.validators_url u = true →
      r0 ∈ s.urls →
      r0.original_url = u →
      (∀ x ∈ s.urls, x.original_url = u → x = r0) →
      is_available r0 now = false →
      r0.short_code = generate_short_code cfg u →
      ∃ m, shorten_url cfg s now u t d e ip =
        .error (.URLShortenerError ("Failed to create shortened URL: " ++ m))) ∧
    (∀ (cfg : Config) (s : Store) (now : Nat) (u : String)
        (t d : Option String) (e : Option Nat) (ip : Option String)
        (resp : URLResponse) (s2 : Store),
      shorten_url cfg s now u t d e ip = .ok (resp, s2) →
      s2.urls = s.urls ∨
        ∃ rn, s2.urls = s.urls ++ [rn] ∧
          rn.short_code = generate_short_code cfg u ∧
          rn.original_url = u) := by
  constructor
  · intro cfg s now u t d e ip r0 hv hmem hurl huniq hnav hcode
    have hvk : validate_unique s.urls
        { id := s.next_id, original_url := u,
          short_code := generate_short_code cfg u, title := t,
          description := d, created_at := now, updated_at := now,
          expires_at := e, is_active := true, click_count := 0,
          last_accessed_at := none, created_by_ip := ip } true = false := by
      cases hb : validate_unique s.urls
          { id := s.next_id, original_url := u,
            short_code := generate_short_code cfg u, title := t,
            description := d, created_at := now, updated_at := now,
            expires_at := e, is_active := true, click_count := 0,
            last_accessed_at := none, created_by_ip := ip } true with
      | false => rfl
      | true =>
          exfalso
          have hall := List.all_eq_true.mp hb r0 hmem
          simp only [Bool.not_true, Bool.false_and, Bool.false_or,
            bne_iff_ne, ne_eq] at hall
          exact hall hcode
    cases hcl : clean cfg
        { id := s.next_id, original_url := u,
          short_code := generate_short_code cfg u, title := t,
          description := d, created_at := now, updated_at := now,
          expires_at := e, is_active := true, click_count := 0,
          last_accessed_at := none, created_by_ip := ip } now with
    | error m =>
        cases hfe : find_existing_url s u with
        | some x =>
            rcases find_existing_some_mem s u x hfe with ⟨hxm, hxu, _⟩
            have hx0 : x = r0 := huniq x hxm hxu
            subst hx0
            exact ⟨m, by simp [shorten_url, hv, hfe, hnav, save_new,
              full_clean, hcl]⟩
        | none =>
            exact ⟨m, by simp [shorten_url, hv, hfe, save_new,
              full_clean, hcl]⟩
    | ok uv =>
        cases hfe : find_existing_url s u with
        | some x =>
            rcases find_existing_some_mem s u x hfe with ⟨hxm, hxu, _⟩
            have hx0 : x = r0 := huniq x hxm hxu
            subst hx0
            exact ⟨"Shortened URL with this Short code already exists.",
              by simp [shorten_url, hv, hfe, hnav, save_new,
                full_clean, hcl, hvk]⟩
        | none =>
            exact ⟨"Shortened URL with this Short code already exists.",
              by simp [shorten_url, hv, hfe, save_new,
                full_clean, hcl, hvk]⟩
  · intro cfg s now u t d e ip resp s2 hok
    cases hv : cfg.validators_url u with
    | false => simp [shorten_url, hv] at hok
    | true =>
        simp only [shorten_url, hv, Bool.not_true, Bool.false_eq_true,
          if_false] at hok
        cases hfe : find_existing_url s u with
        | some r =>
            rw [hfe] at hok
            cases hava : is_available r now with
            | true =>
                simp only [hava, if_true, Except.ok.injEq,
                  Prod.mk.injEq] at hok
                rw [← hok.2]
                exact Or.inl rfl
            | false =>
                simp only [hava, Bool.false_eq_true, if_false] at hok
                split at hok
                · next s3 hsv =>
                    simp only [Except.ok.injEq, Prod.mk.injEq] at hok
                    rcases save_new_ok_parts _ _ _ _ _ hsv with ⟨hu, _, _, _⟩
                    exact Or.inr ⟨_, hok.2 ▸ hu, rfl, rfl⟩
                · simp at hok
        | none =>
            simp only [hfe] at hok
            split at hok
            · next s3 hsv =>
                simp only [Except.ok.injEq, Prod.mk.injEq] at hok
                rcases save_new_ok_parts _ _ _ _ _ hsv with ⟨hu, _, _, _⟩
                exact Or.inr ⟨_, hok.2 ▸ hu, rfl, rfl⟩
            · simp at hok

/-- Claim C10 witness: re-shortening the URL of the expired `row_collision`
(whose code equals the generator's output for that URL) fails with the
wrapped creation error, and a concrete insert stores exactly the generated
code. -/
theorem claim_c10_witness :
    (∃ m, shorten_url fixture_cfg store_collision 10 "https://example.com/c"
          none none none none =
        .error (.URLShortenerError ("Failed to create shortened URL: " ++ m))) ∧
    (store_new.urls = store_empty.urls ∨
      ∃ rn, store_new.urls = store_empty.urls ++ [rn] ∧
        rn.short_code = generate_short_code fixture_cfg "https://example.com/a" ∧
        rn.original_url = "https://example.com/a") :=
  ⟨claim_c10.1 fixture_cfg store_collision 10 "https://example.com/c"
      none none none none row_collision (by decide) (by decide) (by decide)
      (by decide) (by decide) (by decide),
   claim_c10.2 fixture_cfg store_empty 0 "https://example.com/a"
      none none none none (format_url_response fixture_cfg row_new) store_new
      (by rfl)⟩

/-- Claim C5: a successful tracked resolution increments the resolved row's
`click_count` by exactly one and sets its `last_accessed_at` to the current
time, and changes nothing else: every other stored field of that row
(including `updated_at`), every other row, the click table, and the id
counter are unchanged, and no row is added or removed. -/
theorem claim_c5 (cfg : Config) (s : Store) (now : Nat) (code : String)
    (res : ResolveResponse) (s2 : Store)
    (hnd : ids_nodup s.urls = true)
    (hok : get_original_url cfg s now code true = .ok (res, s2)) :
    ∃ r r2, objects_get s code = some r ∧ objects_get s2 code = some r2 ∧
      r2.click_count = r.click_count + 1 ∧
      r2.last_accessed_at = some now ∧
      r2.id = r.id ∧ r2.original_url = r.original_url ∧
      r2.short_code = r.short_code ∧ r2.title = r.title ∧
      r2.description = r.description ∧ r2.created_at = r.created_at ∧
      r2.updated_at = r.updated_at ∧ r2.expires_at = r.expires_at ∧
      r2.is_active = r.is_active ∧ r2.created_by_ip = r.created_by_ip ∧
      (∀ x ∈ s.urls, x.id ≠ r.id → x ∈ s2.urls) ∧
      s2.urls.length = s.urls.length ∧
      s2.clicks = s.clicks ∧ s2.next_id = s.next_id := by
  cases hg : objects_get s code with
  | none => simp [get_original_url, hg] at hok
  | some r =>
      cases ha : r.is_active with
      | false => simp [get_original_url, hg, ha] at hok
      | true =>
          cases he : is_expired r now with
          | true => simp [get_original_url, hg, ha, he] at hok
          | false =>
              simp only [get_original_url, hg, ha, he, Bool.not_true,
                Bool.false_eq_true, if_false, if_true] at hok
              split at hok
              · simp at hok
              · next r2v s3 hinc =>
                  simp only [Except.ok.injEq, Prod.mk.injEq] at hok
                  rcases increment_ok_parts _ _ _ _ _ _ hinc with
                    ⟨_, hu, hc, hn⟩
                  refine ⟨r, clicked_row r now, rfl, ?_, rfl, rfl, rfl,
                    rfl, rfl, rfl, rfl, rfl, rfl, rfl, rfl, rfl, ?_, ?_,
                    ?_, ?_⟩
                  · rw [← hok.2]
                    simp only [objects_get]
                    rw [hu]
                    exact find_map_click s.urls code r (r.click_count + 1)
                      (some now) hnd hg
                  · intro x hx hxid
                    rw [← hok.2, hu]
                    refine List.mem_map.mpr ⟨x, hx, ?_⟩
                    rw [if_neg (by simp [hxid])]
                  · rw [← hok.2, hu, List.length_map]
                  · rw [← hok.2, hc]
                  · rw [← hok.2, hn]

/-- Claim C5 witness: a concrete tracked resolution of `"abc"` at time 10
exhibits the full frame condition. -/
theorem claim_c5_witness :
    ∃ r r2, objects_get store_a "abc" = some r ∧
      objects_get store_a_clicked "abc" = some r2 ∧
      r2.click_count = r.click_count + 1 ∧
      r2.last_accessed_at = some 10 ∧
      r2.id = r.id ∧ r2.original_url = r.original_url ∧
      r2.short_code = r.short_code ∧ r2.title = r.title ∧
      r2.description = r.description ∧ r2.created_at = r.created_at ∧
      r2.updated_at = r.updated_at ∧ r2.expires_at = r.expires_at ∧
      r2.is_active = r.is_active ∧ r2.created_by_ip = r.created_by_ip ∧
      (∀ x ∈ store_a.urls, x.id ≠ r.id → x ∈ store_a_clicked.urls) ∧
      store_a_clicked.urls.length = store_a.urls.length ∧
      store_a_clicked.clicks = store_a.clicks ∧
      store_a_clicked.next_id = store_a.next_id :=
  claim_c5 fixture_cfg store_a 10 "abc"
    { original_url := row_a_clicked.original_url,
      short_code := row_a_clicked.short_code,
      title := row_a_clicked.title,
      description := row_a_clicked.description,
      click_count := row_a_clicked.click_count,
      created_at := row_a_clicked.created_at,
      expires_at := row_a_clicked.expires_at } store_a_clicked
    (by decide) (by rfl)

theorem code_available_parts (s : Store) (code : String) (now : Nat)
    (r : ShortenedURL) (hg : objects_get s code = some r)
    (hava : code_available s code now = true) :
    r.is_active = true ∧ is_expired r now = false := by
  unfold code_available at hava
  rw [hg] at hava
  unfold is_available at hava
  rcases Bool.and_eq_true_iff.mp hava with ⟨h1, h2⟩
  simp only [Bool.not_eq_eq_eq_not, Bool.not_true] at h2
  exact ⟨h1, h2⟩

theorem get_ok_of (cfg : Config) (s : Store) (now : Nat) (code : String)
    (r : ShortenedURL) (track : Bool)
    (hg : objects_get s code = some r) (ha : r.is_active = true)
    (he : is_expired r now = false)
    (hdj : cfg.django_urlvalidator r.original_url = true)
    (hvk : validate_unique s.urls (clicked_row r now) false = true) :
    ∃ res s3, get_original_url cfg s now code track = .ok (res, s3) ∧
      res.original_url = r.original_url := by
  have hfc : full_clean cfg s.urls
      { r with click_count := r.click_count + 1,
               last_accessed_at := some now } now false = .ok () :=
    full_clean_ok_of _ _ _ _ _ (clean_ok_of _ _ _ hdj he) hvk
  cases track with
  | false =>
      simp only [get_original_url, hg, ha, he, Bool.not_true,
        Bool.false_eq_true, if_false, if_true]
      exact ⟨_, _, rfl, rfl⟩
  | true =>
      simp only [get_original_url, hg, ha, he, Bool.not_true,
        Bool.false_eq_true, if_false, if_true]
      simp only [increment_click_count, save_update_click_fields, hfc]
      exact ⟨_, _, rfl, rfl⟩

theorem shorten_insert_resolve (cfg : Config) (s : Store) (now now2 : Nat)
    (rn : ShortenedURL) (s3 : Store) (track : Bool)
    (hsv : save_new cfg s rn now = .ok s3)
    (hdj : cfg.django_urlvalidator rn.original_url = true)
    (hava : code_available s3 rn.short_code now2 = true) :
    ∃ res s4, get_original_url cfg s3 now2 rn.short_code track
        = .ok (res, s4) ∧
      res.original_url = rn.original_url := by
  rcases save_new_ok_parts _ _ _ _ _ hsv with ⟨hu, _, _, hfc⟩
  rcases full_clean_ok_parts _ _ _ _ _ hfc with ⟨_, hvknew⟩
  have hnone : ∀ x ∈ s.urls, (x.short_code == rn.short_code) = false := by
    intro x hx
    have hx2 := List.all_eq_true.mp hvknew x hx
    simp only [Bool.not_true, Bool.false_and, Bool.false_or, bne_iff_ne,
      ne_eq] at hx2
    simp [hx2]
  have hg3 : objects_get s3 rn.short_code = some rn := by
    simp only [objects_get]
    rw [hu]
    exact find_append_single _ _ _ hnone (by simp)
  rcases code_available_parts s3 rn.short_code now2 rn hg3 hava with ⟨ha, he⟩
  have hvk2 : validate_unique s3.urls (clicked_row rn now2) false = true := by
    unfold validate_unique
    rw [hu, List.all_append, Bool.and_eq_true]
    constructor
    · rw [List.all_eq_true]
      intro x hx
      simp [clicked_row, bne, hnone x hx]
    · simp [clicked_row]
  exact get_ok_of cfg s3 now2 rn.short_code rn track hg3 ha he hdj hvk2

/-- Claim C1: for a valid URL `u` (one accepted by both URL validators),
any successful `shorten_url u` followed by `get_original_url` on the
returned `short_code` — while the row bearing that code is still active and
unexpired — resolves to exactly `u` (with or without click tracking), under
the database invariant that stored short codes are unique. -/
theorem claim_c1 (cfg : Config) (s : Store) (now now2 : Nat) (u : String)
    (t d : Option String) (e : Option Nat) (ip : Option String)
    (resp : URLResponse) (s2 : Store) (track : Bool)
    (hnd : codes_nodup s.urls = true)
    (hdj : cfg.django_urlvalidator u = true)
    (hok : shorten_url cfg s now u t d e ip = .ok (resp, s2))
    (hava : code_available s2 resp.short_code now2 = true) :
    ∃ res s3,
      get_original_url cfg s2 now2 resp.short_code track = .ok (res, s3) ∧
      res.original_url = u := by
  cases hv : cfg.validators_url u with
  | false => simp [shorten_url, hv] at hok
  | true =>
      simp only [shorten_url, hv, Bool.not_true, Bool.false_eq_true,
        if_false] at hok
      cases hfe : find_existing_url s u with
      | some x =>
          cases hax : is_available x now with
          | true =>
              rw [hfe] at hok
              simp only [hax, if_true, Except.ok.injEq, Prod.mk.injEq] at hok
              obtain ⟨hresp, hs⟩ := hok
              subst hs
              subst hresp
              rcases find_existing_some_mem s u x hfe with ⟨hxm, hxu, _⟩
              have hgx : objects_get s
                  (format_url_response cfg x).short_code = some x :=
                find_of_codes_nodup s.urls x hnd hxm
              rcases code_available_parts s _ now2 x hgx hava
                with ⟨hact2, hexp2⟩
              have hdjx : cfg.django_urlvalidator x.original_url = true := by
                rw [hxu]
                exact hdj
              have hvk := validate_unique_update s.urls x (x.click_count + 1)
                (some now2) hnd hxm
              rcases get_ok_of cfg s now2 _ x track hgx hact2
                hexp2 hdjx hvk with ⟨res, s3, hres, hurl⟩
              exact ⟨res, s3, hres, by rw [hurl, hxu]⟩
          | false =>
              rw [hfe] at hok
              simp only [hax, Bool.false_eq_true, if_false] at hok
              split at hok
              · next s3 hsv =>
                  simp only [Except.ok.injEq, Prod.mk.injEq] at hok
                  obtain ⟨hresp, hs⟩ := hok
                  subst hs
                  subst hresp
                  rcases shorten_insert_resolve cfg s now now2 _ _ track hsv
                    hdj (by exact hava) with ⟨res, s4, hres, hurl⟩
                  exact ⟨res, s4, by exact hres, by exact hurl⟩
              · simp at hok
      | none =>
          simp only [hfe] at hok
          split at hok
          · next s3 hsv =>
              simp only [Except.ok.injEq, Prod.mk.injEq] at hok
              obtain ⟨hresp, hs⟩ := hok
              subst hs
              subst hresp
              rcases shorten_insert_resolve cfg s now now2 _ _ track hsv
                hdj (by exact hava) with ⟨res, s4, hres, hurl⟩
              exact ⟨res, s4, by exact hres, by exact hurl⟩
          · simp at hok

/-- Claim C1 witness: create on the empty store and resolve the returned
code at the same time; the resolution returns the original URL. -/
theorem claim_c1_witness :
    ∃ res s3,
      get_original_url fixture_cfg store_new 0
          (format_url_response fixture_cfg row_new).short_code true
        = .ok (res, s3) ∧
      res.original_url = "https://example.com/a" :=
  claim_c1 fixture_cfg store_empty 0 0 "https://example.com/a"
    none none none none (format_url_response fixture_cfg row_new) store_new
    true (by decide) (by decide) (by rfl) (by decide)

end UrlShortener
